import Mathlib

/-!
# Verification of `quiz1/simua/oxygen_sim.py`

A shallow embedding of the simulation core of the oxygen-atom script:
the `Electron` and `Atom` classes, the `run_animate` failure behaviour and
the `main` invocation surface.  Python floats are modelled as real numbers;
the Python float operation `%` (with a positive right operand) is `pmod` below.
Mutation of `self.angle` is modelled by state passing: each mutating method
returns the updated object.
-/

open Real

/-- Python float modulo `x % m`: `x - m * floor (x / m)`.
For `m > 0` the result always lies in `[0, m)`. -/
noncomputable def pmod (x m : ℝ) : ℝ := x - m * ⌊x / m⌋

/-- `class Electron`: `shell` (positive int), `angle` (radians), `speed`
(radians per unit time). -/
@[ext]
structure Electron where
  shell : ℕ
  angle : ℝ
  speed : ℝ

/-- `Electron.step(dt)`: `self.angle = (self.angle + self.speed * dt) % (2 * math.pi)`. -/
noncomputable def Electron.step (e : Electron) (dt : ℝ) : Electron :=
  { e with angle := pmod (e.angle + e.speed * dt) (2 * π) }

/-- `Electron.position(radius_scale)`:
`r = self.shell * radius_scale; return (r * cos(self.angle), r * sin(self.angle))`. -/
noncomputable def Electron.position (e : Electron) (radius_scale : ℝ) : ℝ × ℝ :=
  ((e.shell * radius_scale) * Real.cos e.angle, (e.shell * radius_scale) * Real.sin e.angle)

/-- Repeated `step(dt)` calls with the same `dt`, `n` times. -/
noncomputable def Electron.stepN (e : Electron) (n : ℕ) (dt : ℝ) : Electron :=
  match n with
  | 0 => e
  | n + 1 => (e.stepN n dt).step dt

/-- A sequence of `step` calls with the listed `dt` values, in order. -/
noncomputable def Electron.stepMany (e : Electron) (dts : List ℝ) : Electron :=
  dts.foldl Electron.step e

/- ## Facts about `pmod` -/

lemma pmod_eq_fract (x m : ℝ) (hm : m ≠ 0) : pmod x m = m * Int.fract (x / m) := by
  unfold pmod Int.fract
  field_simp

lemma pmod_nonneg (x m : ℝ) (hm : 0 < m) : 0 ≤ pmod x m := by
  rw [pmod_eq_fract x m hm.ne']
  exact mul_nonneg hm.le (Int.fract_nonneg _)

lemma pmod_lt (x m : ℝ) (hm : 0 < m) : pmod x m < m := by
  rw [pmod_eq_fract x m hm.ne']
  calc m * Int.fract (x / m) < m * 1 := by
        exact (mul_lt_mul_left hm).mpr (Int.fract_lt_one _)
    _ = m := mul_one m

lemma pmod_pmod_add (x y m : ℝ) (hm : m ≠ 0) :
    pmod (pmod x m + y) m = pmod (x + y) m := by
  rw [pmod_eq_fract _ _ hm, pmod_eq_fract _ _ hm, pmod_eq_fract _ _ hm]
  congr 1
  have h : (m * Int.fract (x / m) + y) / m = x / m + y / m - ⌊x / m⌋ := by
    unfold Int.fract
    field_simp
    ring
  rw [h, Int.fract_sub_int, add_div]

lemma pmod_mul_self (m : ℝ) (hm : m ≠ 0) : pmod m m = 0 := by
  rw [pmod_eq_fract m m hm]
  have : m / m = (1 : ℝ) := div_self hm
  rw [this]
  simp [Int.fract]

/- ## Facts about `Electron.step` -/

lemma Electron.step_shell (e : Electron) (dt : ℝ) : (e.step dt).shell = e.shell := rfl

lemma Electron.step_speed (e : Electron) (dt : ℝ) : (e.step dt).speed = e.speed := rfl

lemma Electron.step_angle_mem (e : Electron) (dt : ℝ) :
    0 ≤ (e.step dt).angle ∧ (e.step dt).angle < 2 * π :=
  ⟨pmod_nonneg _ _ Real.two_pi_pos, pmod_lt _ _ Real.two_pi_pos⟩

/-- Two consecutive steps compose additively (the inner `pmod` collapses). -/
lemma Electron.step_step (e : Electron) (a b : ℝ) :
    (e.step a).step b = e.step (a + b) := by
  ext
  · rfl
  · show pmod (pmod (e.angle + e.speed * a) (2 * π) + e.speed * b) (2 * π) =
      pmod (e.angle + e.speed * (a + b)) (2 * π)
    rw [pmod_pmod_add _ _ _ Real.two_pi_pos.ne']
    ring_nf
  · rfl

lemma Electron.stepMany_cons (e : Electron) (d : ℝ) (ds : List ℝ) :
    e.stepMany (d :: ds) = (e.step d).stepMany ds := rfl

/-- A nonempty run of steps equals one step by the total elapsed time. -/
lemma Electron.stepMany_eq_step_sum (e : Electron) (d : ℝ) (ds : List ℝ) :
    e.stepMany (d :: ds) = e.step (d + ds.sum) := by
  induction ds generalizing e d with
  | nil => simp [Electron.stepMany]
  | cons d' ds ih =>
      rw [Electron.stepMany_cons, ih, Electron.step_step]
      simp only [List.sum_cons]

/- ## The `Atom` class -/

/-- `ATOM_NAME = "Oxygène"`. -/
def ATOM_NAME : String := "Oxygène"

/-- `Atom._populate_electrons`: shell 1 gets 2 electrons with
`angle = 2π·i/2`, `speed = 0.12 + (i % 2)*0.02`; shell 2 gets 6 electrons
with `angle = 2π·i/6`, `speed = 0.07 + (i % 3)*0.01`; shell-1 electrons are
appended first, then shell-2 electrons, each in loop order. -/
noncomputable def populateElectrons : List Electron :=
  ((List.range 2).map fun i =>
    ⟨1, 2 * π * i / 2, 0.12 + ((i % 2 : ℕ) : ℝ) * 0.02⟩)
  ++ ((List.range 6).map fun i =>
    ⟨2, 2 * π * i / 6, 0.07 + ((i % 3 : ℕ) : ℝ) * 0.01⟩)

/-- `class Atom`: atomic number `Z` plus the owned electron list. -/
structure Atom where
  Z : ℕ
  electrons : List Electron

/-- `Atom.__init__(Z=8)`: stores `Z` and populates the electron list. -/
noncomputable def Atom.init (Z : ℕ) : Atom :=
  { Z := Z, electrons := populateElectrons }

/-- `Atom.step(dt)`: `for e in self.electrons: e.step(dt)`. -/
noncomputable def Atom.step (a : Atom) (dt : ℝ) : Atom :=
  { a with electrons := a.electrons.map (fun e => e.step dt) }

/-- Repeated `Atom.step(dt)` calls, `n` times. -/
noncomputable def Atom.stepN (a : Atom) (n : ℕ) (dt : ℝ) : Atom :=
  match n with
  | 0 => a
  | n + 1 => (a.stepN n dt).step dt

/-- `Atom.summary()`: the multi-line report.  `shell_counts` is the
occurrence count per shell; the per-shell lines run over `sorted(shell_counts)`,
i.e. the distinct shells in ascending order. -/
noncomputable def Atom.summary (a : Atom) : String :=
  String.intercalate "\n"
    (["Atome : " ++ ATOM_NAME ++ " (Z=" ++ toString a.Z ++ ")",
      "Configuration (approx.): 1s2 2s2 2p4 -> total 8 électrons",
      "Nombre d\x27électrons: " ++ toString a.electrons.length]
     ++ (Finset.sort (· ≤ ·) (a.electrons.map Electron.shell).toFinset).map
          fun s => "  couche " ++ toString s ++ ": " ++
            toString (a.electrons.countP fun e => e.shell == s) ++ " électrons")

/-- `Atom.positions(radius_scale)`: `[e.position(radius_scale) for e in self.electrons]`. -/
noncomputable def Atom.positions (a : Atom) (radius_scale : ℝ) : List (ℝ × ℝ) :=
  a.electrons.map fun e => e.position radius_scale

/- ## The invocation surface (`run_animate` and `main`) -/

/-- Possible behaviours of the external rendering collaborator
(matplotlib) when animation is requested. -/
inductive RendererOutcome
  | ok          -- import succeeds and the animation runs to completion
  | importFails -- `import matplotlib` raises
  | runFails    -- import succeeds but a later rendering call raises
deriving DecidableEq

/-- `run_animate(atom)`: the `try`/`except` around the matplotlib imports
prints a diagnostic to stderr and re-raises on import failure; any later
exception from the rendering calls propagates without that diagnostic.
`Except.error d` models an escaping exception, with `d` recording whether
the missing-dependency diagnostic was emitted to stderr. -/
def run_animate (r : RendererOutcome) : Except Bool Unit :=
  match r with
  | .ok => .ok ()
  | .importFails => .error true
  | .runFails => .error false

/-- Result of one `main` invocation: process exit code, whether the print
mode ran, and whether the missing-dependency diagnostic reached stderr. -/
structure MainResult where
  exitCode : ℕ
  ranPrint : Bool
  stderrDiag : Bool
deriving DecidableEq

namespace OxygenSim

/-- `main(argv)`: `--print` wins over `--animate`; animation failures are
caught around the `run_animate` call and turned into exit code 2; the
default (no flags) is the print mode; every other path returns 0. -/
def main (doPrint animate : Bool) (r : RendererOutcome) : MainResult :=
  if doPrint then
    { exitCode := 0, ranPrint := true, stderrDiag := false }
  else if animate then
    match run_animate r with
    | .ok _ => { exitCode := 0, ranPrint := false, stderrDiag := false }
    | .error d => { exitCode := 2, ranPrint := false, stderrDiag := d }
  else
    { exitCode := 0, ranPrint := true, stderrDiag := false }

end OxygenSim

/- ## Structural facts about the populated atom and stepping -/

lemma populate_shells :
    populateElectrons.map Electron.shell = [1, 1, 2, 2, 2, 2, 2, 2] := by
  simp [populateElectrons, List.range_succ]

lemma Atom.step_Z (a : Atom) (dt : ℝ) : (a.step dt).Z = a.Z := rfl

lemma Atom.stepN_Z (a : Atom) (n : ℕ) (dt : ℝ) : (a.stepN n dt).Z = a.Z := by
  induction n with
  | zero => rfl
  | succ n ih => simp [Atom.stepN, Atom.step_Z, ih]

/-- Stepping changes only angles: the shell sequence is untouched. -/
lemma Atom.step_shells (a : Atom) (dt : ℝ) :
    (a.step dt).electrons.map Electron.shell = a.electrons.map Electron.shell := by
  simp [Atom.step, List.map_map, Function.comp_def, Electron.step_shell]

lemma Atom.stepN_shells (a : Atom) (n : ℕ) (dt : ℝ) :
    (a.stepN n dt).electrons.map Electron.shell = a.electrons.map Electron.shell := by
  induction n with
  | zero => rfl
  | succ n ih => rw [Atom.stepN, Atom.step_shells, ih]

lemma Atom.stepN_length (a : Atom) (n : ℕ) (dt : ℝ) :
    (a.stepN n dt).electrons.length = a.electrons.length := by
  have h := a.stepN_shells n dt
  calc (a.stepN n dt).electrons.length
      = ((a.stepN n dt).electrons.map Electron.shell).length := (List.length_map _ _).symm
    _ = (a.electrons.map Electron.shell).length := by rw [h]
    _ = a.electrons.length := List.length_map _ _

/-- Counting electrons on a given shell only looks at the shell sequence. -/
lemma countP_shell_eq (l : List Electron) (s : ℕ) :
    (l.countP fun e => e.shell == s) = ((l.map Electron.shell).countP fun k => k == s) := by
  rw [List.countP_map]
  rfl

lemma Atom.stepN_countP_shell (a : Atom) (n : ℕ) (dt : ℝ) (s : ℕ) :
    ((a.stepN n dt).electrons.countP fun e => e.shell == s) =
      (a.electrons.countP fun e => e.shell == s) := by
  rw [countP_shell_eq, countP_shell_eq, Atom.stepN_shells]

/-- `summary` reads only `Z`, the electron count and the shell sequence. -/
lemma Atom.summary_congr (a b : Atom) (hZ : a.Z = b.Z)
    (hs : a.electrons.map Electron.shell = b.electrons.map Electron.shell) :
    a.summary = b.summary := by
  have hlen : a.electrons.length = b.electrons.length := by
    rw [← List.length_map a.electrons Electron.shell, hs, List.length_map]
  have hf : (fun s : ℕ => "  couche " ++ toString s ++ ": " ++
        toString (a.electrons.countP fun e => e.shell == s) ++ " électrons") =
      fun s : ℕ => "  couche " ++ toString s ++ ": " ++
        toString (b.electrons.countP fun e => e.shell == s) ++ " électrons" := by
    funext s
    rw [countP_shell_eq, countP_shell_eq, hs]
  unfold Atom.summary
  rw [hZ, hs, hlen, hf]

/-- `summary` is unchanged by stepping. -/
lemma Atom.summary_stepN (a : Atom) (n : ℕ) (dt : ℝ) :
    (a.stepN n dt).summary = a.summary :=
  Atom.summary_congr _ _ (a.stepN_Z n dt) (a.stepN_shells n dt)

/- ## Concrete evaluations of the populated atom -/

/-- Evaluating the population loop: the exact initial electron list. -/
lemma populate_eval : populateElectrons =
    [⟨1, 0, 0.12⟩, ⟨1, π, 0.14⟩,
     ⟨2, 0, 0.07⟩, ⟨2, π / 3, 0.08⟩, ⟨2, 2 * π / 3, 0.09⟩,
     ⟨2, π, 0.07⟩, ⟨2, 4 * π / 3, 0.08⟩, ⟨2, 5 * π / 3, 0.09⟩] := by
  simp only [populateElectrons, List.range_succ, List.range_zero, List.map_append,
    List.map_cons, List.map_nil, List.nil_append, List.cons_append, List.append_nil]
  norm_num
  refine ⟨by ring, by ring, by ring, by ring, by ring⟩

lemma populate_length : populateElectrons.length = 8 := by
  rw [populate_eval]
  rfl

lemma populate_sortedShells :
    Finset.sort (· ≤ ·) (populateElectrons.map Electron.shell).toFinset = [1, 2] := by
  rw [populate_shells]
  have h : ([1, 1, 2, 2, 2, 2, 2, 2] : List ℕ).toFinset = insert 1 {2} := by decide
  rw [h, Finset.sort_insert, Finset.sort_singleton]
  · intro b hb
    simp at hb
    omega
  · decide

lemma populate_count_shell1 :
    (populateElectrons.countP fun e => e.shell == 1) = 2 := by
  rw [countP_shell_eq, populate_shells]
  rfl

lemma populate_count_shell2 :
    (populateElectrons.countP fun e => e.shell == 2) = 6 := by
  rw [countP_shell_eq, populate_shells]
  rfl

/-- The full text of `summary()` for the freshly constructed default atom. -/
lemma summary_init_eval : (Atom.init 8).summary =
    "Atome : Oxygène (Z=8)\nConfiguration (approx.): 1s2 2s2 2p4 -> total 8 électrons\nNombre d\x27électrons: 8\n  couche 1: 2 électrons\n  couche 2: 6 électrons" := by
  unfold Atom.summary
  show String.intercalate "\n"
    (["Atome : " ++ ATOM_NAME ++ " (Z=" ++ toString (8 : ℕ) ++ ")",
      "Configuration (approx.): 1s2 2s2 2p4 -> total 8 électrons",
      "Nombre d\x27électrons: " ++ toString populateElectrons.length]
     ++ (Finset.sort (· ≤ ·) (populateElectrons.map Electron.shell).toFinset).map
          fun s => "  couche " ++ toString s ++ ": " ++
            toString (populateElectrons.countP fun e => e.shell == s) ++ " électrons") = _
  rw [populate_length, populate_sortedShells]
  simp only [List.map_cons, List.map_nil]
  rw [populate_count_shell1, populate_count_shell2]
  rfl

/- ## Claims -/

/-- C1: for every electron (any shell, initial angle and speed), every
`dt ≥ 0` and every positive number `n` of repeated `step(dt)` calls, the
resulting angle satisfies `0 ≤ angle < 2π`. -/
theorem electron_angle_normalized_after_steps (e : Electron) (dt : ℝ) (n : ℕ)
    (hdt : 0 ≤ dt) (hn : 1 ≤ n) :
    0 ≤ (e.stepN n dt).angle ∧ (e.stepN n dt).angle < 2 * π := by
  obtain ⟨m, rfl⟩ : ∃ m, n = m + 1 := ⟨n - 1, by omega⟩
  exact Electron.step_angle_mem (e.stepN m dt) dt

/-- Witness for C1 at the default electron, `dt = 1`, one step. -/
theorem electron_angle_normalized_after_steps_witness :
    (0 : ℝ) ≤ 1 ∧ 1 ≤ 1 ∧
      (0 ≤ ((Electron.mk 1 0 0.05).stepN 1 1).angle ∧
        ((Electron.mk 1 0 0.05).stepN 1 1).angle < 2 * π) :=
  ⟨by norm_num, le_refl 1,
    electron_angle_normalized_after_steps ⟨1, 0, 0.05⟩ 1 1 (by norm_num) (le_refl 1)⟩

/-- C10: `step` is total and normalizing for EVERY real `dt`, negative
values included, because the modulo with positive modulus `2π` always lands
in `[0, 2π)`. -/
theorem electron_step_total_any_dt (e : Electron) (dt : ℝ) :
    0 ≤ (e.step dt).angle ∧ (e.step dt).angle < 2 * π :=
  ⟨pmod_nonneg _ _ Real.two_pi_pos, pmod_lt _ _ Real.two_pi_pos⟩

/-- C2: at construction, for any `Z`, the electron sequence is exactly the
two shell-1 electrons followed by the six shell-2 electrons, in creation
order, with angles `2π·i/2` resp. `2π·i/6` and speeds
`0.12 + (i mod 2)·0.02` resp. `0.07 + (i mod 3)·0.01`, here evaluated. -/
theorem atom_init_electron_sequence (Z : ℕ) :
    (Atom.init Z).electrons =
      [⟨1, 0, 0.12⟩, ⟨1, π, 0.14⟩,
       ⟨2, 0, 0.07⟩, ⟨2, π / 3, 0.08⟩, ⟨2, 2 * π / 3, 0.09⟩,
       ⟨2, π, 0.07⟩, ⟨2, 4 * π / 3, 0.08⟩, ⟨2, 5 * π / 3, 0.09⟩] :=
  populate_eval

/-- C3: `position(radiusScale)` is exactly
`(radiusScale·shell·cos angle, radiusScale·shell·sin angle)` (a pure
function: the electron itself is not part of the result state), and the
first entry of `positions(1.5)` on a fresh default atom is `(1.5, 0)`. -/
theorem position_formula (e : Electron) (rs : ℝ) (h : 0 < rs) :
    e.position rs =
      (rs * (e.shell : ℝ) * Real.cos e.angle, rs * (e.shell : ℝ) * Real.sin e.angle) ∧
    ((Atom.init 8).positions 1.5).head? = some (1.5, 0) := by
  constructor
  · unfold Electron.position
    rw [Prod.ext_iff]
    constructor
    · show (e.shell * rs) * Real.cos e.angle = rs * (e.shell : ℝ) * Real.cos e.angle
      ring
    · show (e.shell * rs) * Real.sin e.angle = rs * (e.shell : ℝ) * Real.sin e.angle
      ring
  · show (populateElectrons.map fun e => e.position 1.5).head? = some (1.5, 0)
    rw [populate_eval]
    simp [Electron.position]

/-- Witness for C3 at a concrete electron and `radiusScale = 2`. -/
theorem position_formula_witness :
    (0 : ℝ) < 2 ∧
      ((Electron.mk 1 0 0.05).position 2 =
        (2 * ((Electron.mk 1 0 0.05).shell : ℝ) * Real.cos (Electron.mk 1 0 0.05).angle,
         2 * ((Electron.mk 1 0 0.05).shell : ℝ) * Real.sin (Electron.mk 1 0 0.05).angle) ∧
       ((Atom.init 8).positions 1.5).head? = some (1.5, 0)) :=
  ⟨by norm_num, position_formula ⟨1, 0, 0.05⟩ 2 (by norm_num)⟩

/-- C4: for every constructor argument `Z` and after any number of steps,
the atom has exactly 8 electrons, 2 on shell 1 and 6 on shell 2; stepping
never adds or removes electrons. -/
theorem atom_electron_count_invariant (Z n : ℕ) (dt : ℝ) :
    ((Atom.init Z).stepN n dt).electrons.length = 8 ∧
    (((Atom.init Z).stepN n dt).electrons.countP fun e => e.shell == 1) = 2 ∧
    (((Atom.init Z).stepN n dt).electrons.countP fun e => e.shell == 2) = 6 := by
  refine ⟨?_, ?_, ?_⟩
  · rw [Atom.stepN_length]
    exact populate_length
  · rw [Atom.stepN_countP_shell]
    exact populate_count_shell1
  · rw [Atom.stepN_countP_shell]
    exact populate_count_shell2

/-- C5: in every reachable state of the default atom, `summary()` reports
"couche 1: 2" before "couche 2: 6", contains "8 électrons", consists of the
three header lines plus exactly the two shell lines (the only lines
beginning with "  couche"), reports 8 electrons in total, and is the same
string in every state since it reads counts, never angles. -/
theorem summary_report_properties (n : ℕ) (dt : ℝ) :
    ((Atom.init 8).stepN n dt).summary = (Atom.init 8).summary ∧
    (∃ p m q : String, ((Atom.init 8).stepN n dt).summary =
      p ++ "couche 1: 2" ++ m ++ "couche 2: 6" ++ q) ∧
    (∃ p q : String, ((Atom.init 8).stepN n dt).summary = p ++ "8 électrons" ++ q) ∧
    (∃ ls : List String, ((Atom.init 8).stepN n dt).summary = String.intercalate "\n" ls ∧
      ls.length = 5 ∧
      (ls.countP fun l => "  couche".data.isPrefixOf l.data) = 2) ∧
    ((Atom.init 8).stepN n dt).electrons.length = 8 := by
  have hsum := Atom.summary_stepN (Atom.init 8) n dt
  refine ⟨hsum, ⟨?_, ?_, ?_, ?_⟩⟩
  · refine ⟨"Atome : Oxygène (Z=8)\nConfiguration (approx.): 1s2 2s2 2p4 -> total 8 électrons\nNombre d\x27électrons: 8\n  ",
      " électrons\n  ", " électrons", ?_⟩
    rw [hsum, summary_init_eval]
    rfl
  · refine ⟨"Atome : Oxygène (Z=8)\nConfiguration (approx.): 1s2 2s2 2p4 -> total ",
      "\nNombre d\x27électrons: 8\n  couche 1: 2 électrons\n  couche 2: 6 électrons", ?_⟩
    rw [hsum, summary_init_eval]
    rfl
  · refine ⟨["Atome : Oxygène (Z=8)",
      "Configuration (approx.): 1s2 2s2 2p4 -> total 8 électrons",
      "Nombre d\x27électrons: 8",
      "  couche 1: 2 électrons",
      "  couche 2: 6 électrons"], ?_, rfl, by decide⟩
    rw [hsum, summary_init_eval]
    rfl
  · rw [Atom.stepN_length]
    exact populate_length

/-- C6: electron 1 of the default atom (shell 1, angle 0, speed 0.12),
stepped with `step(1.0)` a total of `2π/0.12 ≈ 52.36` times — 52 unit-time
calls and one final call covering the fractional remainder — returns
exactly to its starting angle: one full revolution (exact over ℝ; the
float version agrees up to rounding tolerance). -/
theorem electron1_full_revolution :
    (Atom.init 8).electrons.head? = some ⟨1, 0, 0.12⟩ ∧
    ((Electron.mk 1 0 0.12).stepMany
        (List.replicate 52 (1 : ℝ) ++ [2 * π / 0.12 - 52])).angle =
      (Electron.mk 1 0 0.12).angle := by
  constructor
  · rw [show (Atom.init 8).electrons = populateElectrons from rfl, populate_eval]
    rfl
  · have hl : List.replicate 52 (1 : ℝ) ++ [2 * π / 0.12 - 52] =
        (1 : ℝ) :: (List.replicate 51 (1 : ℝ) ++ [2 * π / 0.12 - 52]) := by
      rw [List.replicate_succ]
      rfl
    rw [hl, Electron.stepMany_eq_step_sum]
    have hsum : (1 : ℝ) + (List.replicate 51 (1 : ℝ) ++ [2 * π / 0.12 - 52]).sum =
        2 * π / 0.12 := by
      rw [List.sum_append, List.sum_replicate]
      simp
      ring
    rw [hsum]
    show pmod ((0 : ℝ) + 0.12 * (2 * π / 0.12)) (2 * π) = 0
    have h012 : (0 : ℝ) + 0.12 * (2 * π / 0.12) = 2 * π := by
      field_simp
    rw [h012]
    exact pmod_mul_self _ Real.two_pi_pos.ne'

/-- C7 counterexample: with `--animate` alone and a rendering failure AFTER
a successful import (the `try` in `run_animate` only guards the imports),
the process exits with the non-zero code 2 but NO missing-dependency
diagnostic reaches the error stream — contradicting the claim that every
animation failure emits the diagnostic. -/
theorem main_animate_raise_no_diagnostic :
    ¬ ((OxygenSim.main false true RendererOutcome.runFails).exitCode ≠ 0 →
       (OxygenSim.main false true RendererOutcome.runFails).stderrDiag = true) := by
  decide

/-- C7 amended: `--print` wins over `--animate` and is the default; every
success path exits 0; an animation failure is the only non-success path and
exits with the distinct code 2; the missing-dependency diagnostic reaches
stderr exactly when the failure is an unavailable collaborator (import
failure), not when a later rendering call raises. -/
theorem main_invocation_surface (dp an : Bool) (r : RendererOutcome) :
    (OxygenSim.main dp an r).ranPrint = (dp || !an) ∧
    ((OxygenSim.main dp an r).exitCode = 0 ↔
      ¬(dp = false ∧ an = true ∧ r ≠ RendererOutcome.ok)) ∧
    ((OxygenSim.main dp an r).exitCode ≠ 0 → (OxygenSim.main dp an r).exitCode = 2) ∧
    ((OxygenSim.main dp an r).stderrDiag = true ↔
      (dp = false ∧ an = true ∧ r = RendererOutcome.importFails)) := by
  cases dp <;> cases an <;> cases r <;> decide

/-- C8: `positions(radiusScale)` yields one pair per electron, in electron
order, each computed by that electron, and (being modelled as pure
functions over the atom state) neither `positions` nor `summary` changes
any electron. -/
theorem positions_pointwise_pure (a : Atom) (rs : ℝ) (i : ℕ) (h : 0 < rs) :
    (a.positions rs).length = a.electrons.length ∧
    (a.positions rs)[i]? = (a.electrons[i]?).map fun e => e.position rs := by
  constructor
  · exact List.length_map _ _
  · simp [Atom.positions]

/-- Witness for C8 on the default atom at `radiusScale = 1.5`, index 0. -/
theorem positions_pointwise_pure_witness :
    (0 : ℝ) < 1.5 ∧
      (((Atom.init 8).positions 1.5).length = (Atom.init 8).electrons.length ∧
       ((Atom.init 8).positions 1.5)[0]? =
         ((Atom.init 8).electrons[0]?).map fun e => e.position 1.5) :=
  ⟨by norm_num, positions_pointwise_pure (Atom.init 8) 1.5 0 (by norm_num)⟩

/-- C9: stepping composes additively, for a single electron and for the
whole atom: `step(a)` then `step(b)` equals `step(a+b)` (exact over ℝ). -/
theorem step_additive (e : Electron) (t : Atom) (a b : ℝ)
    (ha : 0 ≤ a) (hb : 0 ≤ b) :
    (e.step a).step b = e.step (a + b) ∧ (t.step a).step b = t.step (a + b) := by
  refine ⟨Electron.step_step e a b, ?_⟩
  show Atom.mk t.Z ((t.electrons.map fun e => e.step a).map fun e => e.step b) =
    Atom.mk t.Z (t.electrons.map fun e => e.step (a + b))
  rw [List.map_map]
  have hc : ((fun e => Electron.step e b) ∘ fun e => Electron.step e a) =
      fun e => Electron.step e (a + b) :=
    funext fun e' => Electron.step_step e' a b
  rw [hc]

/-- Witness for C9 at a concrete electron, a one-electron atom, `a = 1`, `b = 2`. -/
theorem step_additive_witness :
    (0 : ℝ) ≤ 1 ∧ (0 : ℝ) ≤ 2 ∧
      (((Electron.mk 1 0 0.05).step 1).step 2 = (Electron.mk 1 0 0.05).step (1 + 2) ∧
       ((Atom.mk 8 [Electron.mk 1 0 0.05]).step 1).step 2 =
         (Atom.mk 8 [Electron.mk 1 0 0.05]).step (1 + 2)) :=
  ⟨by norm_num, by norm_num,
    step_additive ⟨1, 0, 0.05⟩ ⟨8, [⟨1, 0, 0.05⟩]⟩ 1 2 (by norm_num) (by norm_num)⟩
